import Mathlib

/-!
Verification development for the isat-anim-app animation compositing engine.

The data model mirrors `src/data_models/actor.py` and `src/data_models/scene.py`;
the sampling / scheduling / camera / compositing pipeline mirrors
`src/utils/anims.py`; the render entry point mirrors `App.get_scene_frames`
in `src/app.py`.

Modelling conventions:
* Python time values (`duration_sec`, `start_offset_sec`, time cursors) are
  exact rationals, represented by `Q` below: an integer numerator over a
  positive natural denominator, without normalisation, so that every
  definition kernel-evaluates on concrete inputs.  `int(...)` on such a value
  is truncation toward zero (`Q.trunc`), matching CPython's `int()`.
* `np.linspace(0, off, n + 1).astype(int)` is modelled by `linNodes`:
  the exact interpolation nodes `i*off/n` truncated toward zero.
* Fallible code is modelled in `Except RenderErr`: a `.error` marks an input
  on which the Python code raises (ZeroDivisionError at the tiling division,
  `np.concatenate([])`, `[-1]` / `[i]` indexing of an empty or short array,
  a missing dict key) or, for `get_scene_frames`, returns no frames.
* Raster images are carried as `Image` records (width, height, raster bytes);
  pixel contents do not influence any control flow of the engine, only the
  compositing crop rectangle, which is modelled exactly.
-/

namespace IsatAnim

/-- Exact rational time value: numerator over positive denominator, not
normalised (mirrors Python float/real arithmetic on durations exactly;
the repository's spec states all timing maths in terms of the real value
`duration_sec * fps`). -/
structure Q where
  num : Int
  den : ℕ+
deriving DecidableEq

/-- Addition of time values (exact cross-multiplication). -/
def Q.add (a b : Q) : Q :=
  ⟨a.num * ((b.den : ℕ) : ℤ) + b.num * ((a.den : ℕ) : ℤ), a.den * b.den⟩

/-- Multiplication of a time value by a natural scalar (the fps). -/
def Q.natMul (a : Q) (k : Nat) : Q := ⟨a.num * (k : ℤ), a.den⟩

/-- Truncation toward zero, the meaning of Python's `int(...)` on a number. -/
def Q.trunc (a : Q) : Int :=
  if a.num < 0 then -((-a.num).ediv ((a.den : ℕ) : ℤ))
  else a.num.ediv ((a.den : ℕ) : ℤ)

/-- The time value is nonnegative (the denominator is always positive). -/
def Q.Nonneg (a : Q) : Prop := 0 ≤ a.num

/-- Whole-number time value. -/
def Qint (n : Int) : Q := ⟨n, 1⟩

/-- Fractional time value `n / d`. -/
def Qfrac (n : Int) (d : ℕ+) : Q := ⟨n, d⟩

/-! ### Data model (`src/data_models/actor.py`, `src/data_models/scene.py`) -/

/-- A raster image: dimensions and raster bytes (stands for `PIL.Image.Image`). -/
structure Image where
  width : Nat
  height : Nat
  data : List Nat
deriving DecidableEq

/-- The RPG-Maker direction enum of `actor.py`. -/
inductive Direction where
  | left
  | right
  | up
  | down
deriving DecidableEq

/-- `ActionComponent` of `actor.py`. -/
structure ActionComponent where
  sprite : Image
  duration_sec : Q
  x_offset : Int
  y_offset : Int
  movement_speed : Option Int := none
  direction : Option Direction := none
deriving DecidableEq

/-- `Action` of `actor.py`. -/
structure Action where
  name : String
  components : List ActionComponent := []
deriving DecidableEq

/-- `Actor` of `actor.py`. -/
structure Actor where
  name : String
  actions : List Action := []
deriving DecidableEq

/-- `ScheduledAction` of `scene.py`. -/
structure ScheduledAction where
  action : Action
  duration_sec : Q
  start_offset_sec : Q := Qint 0
  is_visible : Bool := true
deriving DecidableEq

/-- `SceneActor` of `scene.py`. -/
structure SceneActor where
  actor : Actor
  start_x : Int
  start_y : Int
  scheduled_actions : List ScheduledAction := []
deriving DecidableEq

/-- `CameraMove` of `scene.py`. -/
structure CameraMove where
  x : Int := 0
  y : Int := 0
  linked_sa : Option SceneActor := none
  duration_sec : Q := Qint 1
deriving DecidableEq

/-- `Camera` of `scene.py`. -/
structure Camera where
  width : Int := 816
  height : Int := 624
  start_x : Int := 0
  start_y : Int := 0
  moves : List CameraMove := []
deriving DecidableEq

/-- `Scene` of `scene.py`. -/
structure Scene where
  name : String
  background : Option Image := none
  duration_sec : Q := Qint 5
  actors : List SceneActor := []
  camera : Camera := {}
deriving DecidableEq

/-! ### JSON document serialization (`actor.py` `to_dict` / `from_dict`)

The dictionaries produced by `to_dict` are mirrored by record types holding
exactly the keys the Python code writes.  The base64-encoded PNG string under
the `sprite` key is modelled by `pngEncode`.  -/

/-- Modelled from the spec: the PNG encoder/decoder of the external image
library is not part of this repository.  Section 6 of the spec requires the
raster content to survive a PNG re-encode bit-identically (PNG is lossless),
so the codec is modelled as a faithful pairing of the image dimensions with
its raster bytes. -/
def pngEncode (img : Image) : List Nat :=
  img.width :: img.height :: img.data

/-- Modelled from the spec: inverse of `pngEncode` (see there). -/
def pngDecode (bytes : List Nat) : Image :=
  match bytes with
  | w :: h :: d => ⟨w, h, d⟩
  | _ => ⟨0, 0, []⟩

/-- The dictionary written by `ActionComponent.to_dict`. -/
structure ActionComponentDict where
  sprite : List Nat
  duration_sec : Q
  x_offset : Int
  y_offset : Int
  movement_speed : Option Int
  direction : Option Direction
deriving DecidableEq

/-- The dictionary written by `Action.to_dict`. -/
structure ActionDict where
  name : String
  components : List ActionComponentDict
deriving DecidableEq

/-- The dictionary written by `Actor.to_dict`. -/
structure ActorDict where
  name : String
  actions : List ActionDict
deriving DecidableEq

/-- `ActionComponent.to_dict` of `actor.py`. -/
def ActionComponent.to_dict (c : ActionComponent) : ActionComponentDict :=
  { sprite := pngEncode c.sprite
  , duration_sec := c.duration_sec
  , x_offset := c.x_offset
  , y_offset := c.y_offset
  , movement_speed := c.movement_speed
  , direction := c.direction }

/-- `ActionComponent.from_dict` of `actor.py`. -/
def ActionComponent.from_dict (d : ActionComponentDict) : ActionComponent :=
  { sprite := pngDecode d.sprite
  , duration_sec := d.duration_sec
  , x_offset := d.x_offset
  , y_offset := d.y_offset
  , movement_speed := d.movement_speed
  , direction := d.direction }

/-- `Action.to_dict` of `actor.py`. -/
def Action.to_dict (a : Action) : ActionDict :=
  { name := a.name, components := a.components.map ActionComponent.to_dict }

/-- `Action.from_dict` of `actor.py`. -/
def Action.from_dict (d : ActionDict) : Action :=
  { name := d.name, components := d.components.map ActionComponent.from_dict }

/-- `Actor.to_dict` of `actor.py`. -/
def Actor.to_dict (a : Actor) : ActorDict :=
  { name := a.name, actions := a.actions.map Action.to_dict }

/-- `Actor.from_dict` of `actor.py`. -/
def Actor.from_dict (d : ActorDict) : Actor :=
  { name := d.name, actions := d.actions.map Action.from_dict }

/-! ### Action sampling (`get_action_frames`, `anims.py` lines 27-68) -/

/-- Error base for the fallible parts of the pipeline; each constructor marks
a place where the Python code raises (or, for `noBackground`, returns `None`
from the render entry point). -/
inductive RenderErr where
  /-- `get_scene_frames` returns `None` after the background warning. -/
  | noBackground
  /-- `ZeroDivisionError` at `ceil(... / len(action_data["dx"]))`. -/
  | divByZeroTrack
  /-- `ValueError` from `np.concatenate([])` when the tile count is ≤ 0. -/
  | emptyConcat
  /-- `IndexError` from `[-1]` / `[i]` on an empty or short array, or an
  input outside the modelled domain (negative offsets / spans, where Python
  slicing would index from the end). -/
  | indexError
  /-- `KeyError` on the per-scene dict keyed by `str(scene_actor)`. -/
  | keyError
deriving DecidableEq

/-- `int(comp.duration_sec * fps)`: the per-component frame count.  (For the
negative durations the spec rules out, Python would raise inside
`np.linspace`; `toNat` clamps them to an empty component instead.) -/
def nCompFrames (c : ActionComponent) (fps : Nat) : Nat :=
  (Q.trunc (c.duration_sec.natMul fps)).toNat

/-- `np.linspace(0, off, n + 1).astype(int)`: `n + 1` evenly spaced nodes from
`0` to `off`, each truncated toward zero.  `Int.tdiv _ 0 = 0` makes the
`n = 0` case agree with numpy's single node `[0.0]`. -/
def linNodes (off : Int) (n : Nat) : List Int :=
  (List.range (n + 1)).map fun i : Nat => ((i : ℤ) * off).tdiv (n : ℤ)

/-- `np.diff`: consecutive differences. -/
def diffs : List Int → List Int
  | a :: b :: t => (b - a) :: diffs (b :: t)
  | _ => []

/-- The `comp_dxs` array of one component (`anims.py` line 57). -/
def compDx (c : ActionComponent) (fps : Nat) : List Int :=
  diffs (linNodes c.x_offset (nCompFrames c fps))

/-- The `comp_dys` array of one component (`anims.py` line 58). -/
def compDy (c : ActionComponent) (fps : Nat) : List Int :=
  diffs (linNodes c.y_offset (nCompFrames c fps))

/-- The sprites contributed by one component (`anims.py` line 62). -/
def compSprites (c : ActionComponent) (fps : Nat) : List Image :=
  List.replicate (nCompFrames c fps) c.sprite

/-- The sampled track of one action. -/
structure ActionFrames where
  dx : List Int
  dy : List Int
  sprites : List Image
deriving DecidableEq

/-- `get_action_frames` of `anims.py`. -/
def get_action_frames (action : Action) (fps : Nat) : ActionFrames :=
  if action.components = [] then ⟨[], [], []⟩
  else
    { dx := (action.components.map fun c => compDx c fps).flatten
    , dy := (action.components.map fun c => compDy c fps).flatten
    , sprites := (action.components.map fun c => compSprites c fps).flatten }

/-! ### Actor scheduling (`get_scene_actor_frames`, `anims.py` lines 71-160) -/

/-- Python slice `l[start : start + len]` for `start ≥ 0` (a negative `len`
gives the empty slice, as in Python; negative `start`, which Python would
interpret from the end, never arises in the modelled domain and is guarded
against before every use). -/
def pySlice {α : Type} (l : List α) (start len : Int) : List α :=
  (l.drop start.toNat).take len.toNat

/-- `math.ceil(a / b)` on integers with `b > 0` (`/` is `Int.ediv`). -/
def ceilD (a b : Int) : Int := -((-a) / b)

/-- Running cumulative sums, `np.cumsum`. -/
def cumsum (l : List Int) : List Int := (l.scanl (· + ·) 0).drop 1

/-- The loop state of `get_scene_actor_frames`: frame cursor, time cursor,
the per-slot `dx`/`dy` arrays, the sprite list, and the `action_dict` cache
keyed by action name. -/
structure SAWalk where
  curr_frame : Int
  curr_time : Q
  dxs : List (List Int)
  dys : List (List Int)
  sprites : List (Option Image)
  cache : List (String × ActionFrames)
deriving DecidableEq

/-- The initial loop state (`anims.py` lines 89-95). -/
def initSAWalk : SAWalk := ⟨0, Qint 0, [], [], [], []⟩

/-- Lines 103-107 of `anims.py`: add the sampled frames of the action to the
cache if its name is not a key yet, then read the cache. -/
def lookupOrSample (cache : List (String × ActionFrames)) (sched : ScheduledAction)
    (fps : Nat) : ActionFrames × List (String × ActionFrames) :=
  match cache.lookup sched.action.name with
  | some d => (d, cache)
  | none =>
    let d := get_action_frames sched.action fps
    (d, (sched.action.name, d) :: cache)

/-- One iteration of the loop of `get_scene_actor_frames`
(`anims.py` lines 98-137), without the `break` test. -/
def saStep (fps : Nat) (st : SAWalk) (sched : ScheduledAction) :
    Except RenderErr SAWalk :=
  let action_data := (lookupOrSample st.cache sched fps).1
  let cache := (lookupOrSample st.cache sched fps).2
  let action_final_frame : Int := Q.trunc ((st.curr_time.add sched.duration_sec).natMul fps)
  let n_action_frames : Int := action_final_frame - st.curr_frame
  let n_offset_frames : Int := Q.trunc (sched.start_offset_sec.natMul fps)
  if n_offset_frames < 0 then .error .indexError
  else if action_data.dx.length = 0 then .error .divByZeroTrack
  else
    let n_action_cycles : Int := ceilD (n_offset_frames + n_action_frames) action_data.dx.length
    if n_action_cycles ≤ 0 then .error .emptyConcat
    else
      let action_dx :=
        pySlice (List.replicate n_action_cycles.toNat action_data.dx).flatten
          n_offset_frames n_action_frames
      let action_dy :=
        pySlice (List.replicate n_action_cycles.toNat action_data.dy).flatten
          n_offset_frames n_action_frames
      let sched_sprites : List (Option Image) :=
        if sched.is_visible then
          (pySlice (List.replicate n_action_cycles.toNat action_data.sprites).flatten
            n_offset_frames n_action_frames).map some
        else
          List.replicate n_action_frames.toNat none
      .ok { curr_frame := st.curr_frame + n_action_frames
          , curr_time := st.curr_time.add sched.duration_sec
          , dxs := st.dxs ++ [action_dx]
          , dys := st.dys ++ [action_dy]
          , sprites := st.sprites ++ sched_sprites
          , cache := cache }

/-- The full loop of `get_scene_actor_frames`: stop (`break`) as soon as the
frame cursor has reached `n_frames`, otherwise run `saStep` on each
scheduled action in order. -/
def saWalk (n_frames fps : Nat) :
    List ScheduledAction → SAWalk → Except RenderErr SAWalk
  | [], st => .ok st
  | sched :: rest, st =>
    if (n_frames : Int) ≤ st.curr_frame then .ok st
    else (saStep fps st sched).bind (saWalk n_frames fps rest)

/-- The resolved per-frame track of one scene actor. -/
structure ActorTrack where
  sprites : List (Option Image)
  x : List Int
  y : List Int
deriving DecidableEq

/-- `get_scene_actor_frames` of `anims.py`.  After the walk: the no-slot
constant track (lines 139-144), otherwise cumulative sums plus the start
position (147-148), idle padding by `max(n_frames - len(dx), 0)` copies of
the last value — `len(dx)` counts slots, exactly as the source does — and
truncation to `n_frames` (151-160).  `x[-1]` on an empty coordinate array is
an `IndexError`. -/
def get_scene_actor_frames (scene_actor : SceneActor) (n_frames fps : Nat) :
    Except RenderErr ActorTrack :=
  (saWalk n_frames fps scene_actor.scheduled_actions initSAWalk).bind fun st =>
    if st.dxs = [] then
      .ok { sprites := List.replicate n_frames none
          , x := List.replicate n_frames scene_actor.start_x
          , y := List.replicate n_frames scene_actor.start_y }
    else
      let x := (cumsum st.dxs.flatten).map (· + scene_actor.start_x)
      let y := (cumsum st.dys.flatten).map (· + scene_actor.start_y)
      match x.getLast?, y.getLast?, st.sprites.getLast? with
      | some xl, some yl, some sl =>
        let n_missing : Nat := n_frames - st.dxs.length
        .ok { sprites := (st.sprites ++ List.replicate n_missing sl).take n_frames
            , x := (x ++ List.replicate n_missing xl).take n_frames
            , y := (y ++ List.replicate n_missing yl).take n_frames }
      | _, _, _ => .error .indexError

/-! ### Camera path (`get_camera_pos`, `anims.py` lines 163-237) -/

/-- The per-scene dict `actors_frame_info` keyed by `str(scene_actor)`:
an association list looked up by structural equality (`str` of a Python
dataclass is determined by its field values). -/
def lookupTrack : List (SceneActor × ActorTrack) → SceneActor → Option ActorTrack
  | [], _ => none
  | p :: rest, sa => if p.1 = sa then some p.2 else lookupTrack rest sa

/-- The loop state of `get_camera_pos`: current camera centre, the per-move
sample lists, and the cursors. -/
structure CamWalk where
  x : Int
  y : Int
  x_list : List (List Int)
  y_list : List (List Int)
  curr_frame : Int
  curr_time : Q
deriving DecidableEq

/-- One iteration of the loop of `get_camera_pos` (`anims.py` lines 196-216),
without the `break` test.  An unlinked move emits all `n_move_frames + 1`
linspace nodes; a linked move emits the actor-track slice
`[curr_frame : curr_frame + n_move_frames]`.  `move_x[-1]` on an empty array
(linked slice out of range, or a negative span) is an `IndexError`. -/
def camStep (actors_frame_info : List (SceneActor × ActorTrack)) (fps : Nat)
    (st : CamWalk) (move : CameraMove) : Except RenderErr CamWalk :=
  let n_move_frames : Int :=
    Q.trunc ((move.duration_sec.add st.curr_time).natMul fps) - st.curr_frame
  let emit : Except RenderErr (List Int × List Int) :=
    match move.linked_sa with
    | none =>
      if n_move_frames < 0 then .error .indexError
      else
        .ok ((linNodes move.x n_move_frames.toNat).map (· + st.x),
             (linNodes move.y n_move_frames.toNat).map (· + st.y))
    | some sa =>
      if st.curr_frame < 0 then .error .indexError
      else
        match lookupTrack actors_frame_info sa with
        | none => .error .keyError
        | some tr =>
          .ok (pySlice tr.x st.curr_frame n_move_frames,
               pySlice tr.y st.curr_frame n_move_frames)
  emit.bind fun mv =>
    if n_move_frames = 0 then
      .ok { st with
            x_list := st.x_list ++ [mv.1]
          , y_list := st.y_list ++ [mv.2]
          , curr_frame := st.curr_frame + n_move_frames
          , curr_time := st.curr_time.add move.duration_sec }
    else
      match mv.1.getLast?, mv.2.getLast? with
      | some lx, some ly =>
        .ok { x := lx, y := ly
            , x_list := st.x_list ++ [mv.1]
            , y_list := st.y_list ++ [mv.2]
            , curr_frame := st.curr_frame + n_move_frames
            , curr_time := st.curr_time.add move.duration_sec }
      | _, _ => .error .indexError

/-- The full loop of `get_camera_pos`, with the early `break` once the frame
cursor has reached `n_frames`. -/
def camWalk (actors_frame_info : List (SceneActor × ActorTrack)) (n_frames fps : Nat) :
    List CameraMove → CamWalk → Except RenderErr CamWalk
  | [], st => .ok st
  | move :: rest, st =>
    if (n_frames : Int) ≤ st.curr_frame then .ok st
    else (camStep actors_frame_info fps st move).bind (camWalk actors_frame_info n_frames fps rest)

/-- The resolved camera-centre track. -/
structure CamTrack where
  x : List Int
  y : List Int
deriving DecidableEq

/-- `get_camera_pos` of `anims.py`: run the walk, then the constant-track
cases (lines 218-231), else pad with `max(n_frames - len(cam_x), 0)` copies
of the last samples (233-235; note: no truncation). -/
def get_camera_pos (camera : Camera)
    (actors_frame_info : List (SceneActor × ActorTrack)) (n_frames fps : Nat) :
    Except RenderErr CamTrack :=
  (camWalk actors_frame_info n_frames fps camera.moves
      ⟨camera.start_x, camera.start_y, [], [], 0, Qint 0⟩).bind fun st =>
    if st.x_list = [] then
      .ok ⟨List.replicate n_frames st.x, List.replicate n_frames st.y⟩
    else
      let cam_x := st.x_list.flatten
      let cam_y := st.y_list.flatten
      if cam_x = [] then
        .ok ⟨List.replicate n_frames st.x, List.replicate n_frames st.y⟩
      else
        match cam_x.getLast?, cam_y.getLast? with
        | some lx, some ly =>
          let n_missing : Nat := n_frames - cam_x.length
          .ok ⟨cam_x ++ List.replicate n_missing lx,
               cam_y ++ List.replicate n_missing ly⟩
        | _, _ => .error .indexError

/-! ### Frame composition (`compose_frames`, `anims.py` lines 240-325) -/

/-- Run a fallible function over a list, collecting results, stopping at the
first error (the effect of a Python `for` loop that may raise). -/
def exceptMap {α β : Type} (f : α → Except RenderErr β) : List α → Except RenderErr (List β)
  | [] => .ok []
  | a :: l => (f a).bind fun b => (exceptMap f l).map fun bs => b :: bs

/-- One output frame, recorded as its crop rectangle
`np.array(frame)[cam_t:cam_b, cam_l:cam_r]` into the composited canvas
(the canvas always has the background's dimensions; pasting sprites changes
pixels, never the canvas size). -/
structure Frame where
  cam_l : Int
  cam_r : Int
  cam_t : Int
  cam_b : Int
deriving DecidableEq

/-- The horizontal camera clamp of `compose_frames` (`anims.py` lines 295-306). -/
def cropX (bg_w : Nat) (cam_w : Int) (camx : Int) : Int × Int :=
  if bg_w ≤ cam_w then (0, (bg_w : ℤ))
  else
    let x0 : Int := ((bg_w / 2 : Nat) : ℤ)
    let cam_x := x0 + camx
    let cam_l := max (cam_x - cam_w.fdiv 2) 0
    let cam_r := cam_l + cam_w
    if (bg_w : ℤ) < cam_r then (cam_l - (cam_r - bg_w), (bg_w : ℤ))
    else (cam_l, cam_r)

/-- The vertical camera clamp of `compose_frames` (`anims.py` lines 309-320);
note the `y0 - cam_pos` sign flip. -/
def cropY (bg_h : Nat) (cam_h : Int) (camy : Int) : Int × Int :=
  if bg_h ≤ cam_h then (0, (bg_h : ℤ))
  else
    let y0 : Int := ((bg_h / 2 : Nat) : ℤ)
    let cam_y := y0 - camy
    let cam_t := max (cam_y - cam_h.fdiv 2) 0
    let cam_b := cam_t + cam_h
    if (bg_h : ℤ) < cam_b then (cam_t - (cam_b - bg_h), (bg_h : ℤ))
    else (cam_t, cam_b)

/-- The reads the paste loop performs for one actor at frame `i`
(`anims.py` lines 280-292): the actor's dict entry, its sprite at `i`, and —
when the sprite is present — its x and y at `i`; an out-of-range read is an
`IndexError`, a missing dict key a `KeyError`; pasting itself only mutates
pixels of the canvas. -/
def pasteCheck (actors_frame_info : List (SceneActor × ActorTrack)) (i : Nat)
    (sa : SceneActor) : Except RenderErr Unit :=
  match lookupTrack actors_frame_info sa with
  | none => Except.error RenderErr.keyError
  | some tr =>
    match tr.sprites[i]? with
    | none => Except.error RenderErr.indexError
    | some none => Except.ok ()
    | some (some _) =>
      match tr.x[i]?, tr.y[i]? with
      | some _, some _ => Except.ok ()
      | _, _ => Except.error RenderErr.indexError

/-- The body of the per-frame loop of `compose_frames` for frame `i`:
run the paste-loop reads for every scene actor in reversed paint order, then
compute the crop rectangle from `cam_pos["x"][i]` and `cam_pos["y"][i]`. -/
def composeFrame (bg_w bg_h : Nat)
    (actors_frame_info : List (SceneActor × ActorTrack)) (cam_pos : CamTrack)
    (actors : List SceneActor) (camera : Camera) (i : Nat) :
    Except RenderErr Frame :=
  (exceptMap (pasteCheck actors_frame_info i) actors.reverse).bind fun _ =>
    match cam_pos.x[i]?, cam_pos.y[i]? with
    | some cx, some cy =>
      let lr := cropX bg_w camera.width cx
      let tb := cropY bg_h camera.height cy
      .ok ⟨lr.1, lr.2, tb.1, tb.2⟩
    | _, _ => .error .indexError

/-- `compose_frames` of `anims.py`: one frame per `i in range(n_frames)`. -/
def compose_frames (background : Image)
    (actors_frame_info : List (SceneActor × ActorTrack)) (cam_pos : CamTrack)
    (actors : List SceneActor) (camera : Camera) (n_frames : Nat) :
    Except RenderErr (List Frame) :=
  exceptMap
    (composeFrame background.width background.height actors_frame_info cam_pos actors camera)
    (List.range n_frames)

/-! ### Render entry point (`App.get_scene_frames`, `app.py` lines 1174-1218) -/

/-- The `actor_frames` dict built by `get_scene_frames` (`app.py` 1207-1210):
one entry per scene actor, keyed by the actor itself (for `str(sa)`). -/
def buildActorFrames (actors : List SceneActor) (n_frames fps : Nat) :
    Except RenderErr (List (SceneActor × ActorTrack)) :=
  exceptMap (fun sa => (get_scene_actor_frames sa n_frames fps).map fun tr => (sa, tr)) actors

/-- `App.get_scene_frames` for a selected scene (`app.py` lines 1174-1218):
refuse when the scene has no background, else render at `fps = 60` with
`n_frames = int(scene.duration_sec * fps)`. -/
def get_scene_frames (scene : Scene) : Except RenderErr (List Frame) :=
  match scene.background with
  | none => .error .noBackground
  | some background =>
    let fps : Nat := 60
    let n_frames : Nat := (Q.trunc (scene.duration_sec.natMul fps)).toNat
    (buildActorFrames scene.actors n_frames fps).bind fun actor_frames =>
      (get_camera_pos scene.camera actor_frames n_frames fps).bind fun cam_pos =>
        compose_frames background actor_frames cam_pos scene.actors scene.camera n_frames

end IsatAnim

deriving instance DecidableEq for Except

namespace IsatAnim

/-! ### Concrete instances used by the counterexamples and witnesses -/

/-- A small sprite. -/
def exSprite : Image := ⟨4, 4, [1]⟩

/-- One-second component moving 10 px right. -/
def exComp10 : ActionComponent :=
  { sprite := exSprite, duration_sec := Qint 1, x_offset := 10, y_offset := 0 }

/-- One-component action. -/
def exAct10 : Action := ⟨"walk", [exComp10]⟩

/-- An action with zero components (samples to an empty track). -/
def exEmptyAction : Action := ⟨"empty", []⟩

/-- A scene actor scheduling the zero-component action. -/
def exSaEmpty : SceneActor :=
  ⟨⟨"a", []⟩, 0, 0, [{ action := exEmptyAction, duration_sec := Qint 1 }]⟩

/-- Two slots of 0.05 s each with a 0.1 s phase offset at fps 10: the first
slot spans zero frames, the second one frame, so the walk appends two slot
arrays holding one frame in total. -/
def exSaShort : SceneActor :=
  ⟨⟨"a", []⟩, 0, 0,
   [{ action := exAct10, duration_sec := Qfrac 1 20, start_offset_sec := Qfrac 1 10 },
    { action := exAct10, duration_sec := Qfrac 1 20, start_offset_sec := Qfrac 1 10 }]⟩

/-- A camera with a single unlinked one-second move of 4 px. -/
def exCamUnlinked : Camera :=
  { width := 10
  , height := 10
  , moves := [{ x := 4, y := 0, linked_sa := none, duration_sec := Qint 1 }] }

/-- A scene actor with no schedule, used as a follow target. -/
def exFollowSA : SceneActor := ⟨⟨"b", []⟩, 0, 0, []⟩

/-- A four-frame track for `exFollowSA`. -/
def exFollowTrack : ActorTrack :=
  ⟨[none, none, none, none], [0, 10, 20, 30], [0, 0, 0, 0]⟩

/-- An unlinked move followed by a move linked to `exFollowSA`. -/
def exCamFollow : Camera :=
  { width := 10
  , height := 10
  , moves := [{ x := 6, y := 0, linked_sa := none, duration_sec := Qint 1 },
              { x := 0, y := 0, linked_sa := some exFollowSA, duration_sec := Qint 2 }] }

/-- A scene with a background whose only actor schedules the zero-component
action. -/
def exSceneCrash : Scene :=
  { name := "s"
  , background := some ⟨100, 100, []⟩
  , duration_sec := Qint 1
  , actors := [exSaEmpty]
  , camera := {} }

/-- A defaulted scene actor with one full-length slot. -/
def exSaOk : SceneActor :=
  ⟨⟨"a", []⟩, 3, 4, [{ action := exAct10, duration_sec := Qint 1 }]⟩

/-- A 50 by 50 camera. -/
def exCam50 : Camera := { width := 50, height := 50 }

/-- The initial camera-walk state at the origin. -/
def exCamSt0 : CamWalk := ⟨0, 0, [], [], 0, Qint 0⟩

/-- An unlinked one-second move of 4 px. -/
def exMove5 : CameraMove := ⟨4, 0, none, Qint 1⟩

/-- A camera-walk state one frame and one second in. -/
def exCamSt1 : CamWalk := ⟨0, 0, [[0, 6]], [[0, 0]], 1, Qint 1⟩

/-- A two-second move linked to `exFollowSA`. -/
def exMoveLinked : CameraMove := ⟨0, 0, some exFollowSA, Qint 2⟩

/-- A well-formed one-actor scene rendered by the witness of the amended
render-entry claim. -/
def exSceneOk : Scene :=
  { name := "s"
  , background := some ⟨100, 100, []⟩
  , duration_sec := Qfrac 1 10
  , actors := [exSaOk]
  , camera := { width := 10, height := 10
              , moves := [{ x := 4, y := 0, linked_sa := none, duration_sec := Qint 1 }] } }

/-- The resolved track of `exSaOk` over 6 frames at fps 60. -/
def exTr6 : ActorTrack :=
  ⟨List.replicate 6 (some exSprite), [3, 3, 3, 3, 3, 4], List.replicate 6 4⟩

/-- The resolved track of `exSaOk` over 10 frames at fps 10. -/
def exTrOk : ActorTrack :=
  ⟨List.replicate 10 (some exSprite), [4, 5, 6, 7, 8, 9, 10, 11, 12, 13],
   List.replicate 10 4⟩

/-- The camera track of `exCamUnlinked` over 2 frames at fps 2. -/
def exCtUnlinked : CamTrack := ⟨[0, 2, 4], [0, 0, 0]⟩

/-! ### Invariants used by the track-length theorems -/

/-- Every cached sampled track has `dy` and `sprites` arrays as long as its
`dx` array (true of every `get_action_frames` result). -/
def CacheGood (cache : List (String × ActionFrames)) : Prop :=
  ∀ p ∈ cache, p.2.dy.length = p.2.dx.length ∧ p.2.sprites.length = p.2.dx.length

/-- Intermediate-state invariant of the scheduling walk: the per-slot `dy`
arrays match the `dx` arrays in length, the sprite list holds exactly one
entry per walked frame, and the cache is well-formed. -/
def SAWalkGood (st : SAWalk) : Prop :=
  st.dys.map List.length = st.dxs.map List.length ∧
    st.sprites.length = st.dxs.flatten.length ∧ CacheGood st.cache

/-- The walk of `get_scene_actor_frames` appended at most as many slot
arrays as the total number of frames they hold.  The idle padding of
`get_scene_actor_frames` counts slots (`len(dx)`), not frames, so this is
the condition under which the padding is sufficient; it holds in particular
whenever every processed slot spans at least one frame. -/
def walkBalanced (sa : SceneActor) (n_frames fps : Nat) : Bool :=
  match saWalk n_frames fps sa.scheduled_actions initSAWalk with
  | .ok st => decide (st.dxs.length ≤ st.dxs.flatten.length)
  | .error _ => true

/-! ## Helper lemmas -/

theorem Q.den_cast_pos (a : Q) : (0 : ℤ) < ((a.den : ℕ) : ℤ) := by
  exact_mod_cast a.den.pos

theorem Q.trunc_nonneg {a : Q} (h : 0 ≤ a.num) : 0 ≤ a.trunc := by
  unfold Q.trunc
  rw [if_neg (by omega)]
  exact Int.ediv_nonneg h (le_of_lt a.den_cast_pos)

theorem Q.trunc_le_trunc {a b : Q} (ha : 0 ≤ a.num)
    (hab : a.num * ((b.den : ℕ) : ℤ) ≤ b.num * ((a.den : ℕ) : ℤ)) :
    a.trunc ≤ b.trunc := by
  have hda := a.den_cast_pos
  have hdb := b.den_cast_pos
  have hb : 0 ≤ b.num := by nlinarith
  unfold Q.trunc
  rw [if_neg (by omega), if_neg (by omega)]
  rw [show Int.ediv b.num ((b.den : ℕ) : ℤ) = b.num / ((b.den : ℕ) : ℤ) from rfl]
  rw [Int.le_ediv_iff_mul_le hdb]
  have h1 : a.num.ediv ((a.den : ℕ) : ℤ) * ((a.den : ℕ) : ℤ) ≤ a.num :=
    Int.ediv_mul_le a.num (by omega)
  have h3 : a.num.ediv ((a.den : ℕ) : ℤ) * ((b.den : ℕ) : ℤ) * ((a.den : ℕ) : ℤ) ≤
      b.num * ((a.den : ℕ) : ℤ) := by nlinarith
  exact le_of_mul_le_mul_right h3 hda

theorem Q.trunc_natMul_le_add (t d : Q) (fps : Nat) (ht : 0 ≤ t.num) (hd : 0 ≤ d.num) :
    (t.natMul fps).trunc ≤ ((d.add t).natMul fps).trunc := by
  apply Q.trunc_le_trunc
  · exact mul_nonneg ht (by positivity)
  · show t.num * (fps : ℤ) * (((d.den * t.den : ℕ+) : ℕ) : ℤ) ≤
      (d.num * ((t.den : ℕ) : ℤ) + t.num * ((d.den : ℕ) : ℤ)) * (fps : ℤ) * ((t.den : ℕ) : ℤ)
    rw [PNat.mul_coe]
    push_cast
    nlinarith [t.den_cast_pos, d.den_cast_pos, mul_nonneg (mul_nonneg
      (mul_nonneg hd (le_of_lt t.den_cast_pos)) (by positivity : (0:ℤ) ≤ (fps : ℤ)))
      (le_of_lt t.den_cast_pos)]

theorem Q.add_comm (a b : Q) : a.add b = b.add a := by
  unfold Q.add
  congr 1
  · ring
  · exact mul_comm a.den b.den

theorem Q.add_num_nonneg {a b : Q} (ha : 0 ≤ a.num) (hb : 0 ≤ b.num) :
    0 ≤ (a.add b).num := by
  dsimp only [Q.add]
  have h1 := a.den_cast_pos
  have h2 := b.den_cast_pos
  nlinarith

theorem diffs_length : ∀ l : List Int, (diffs l).length = l.length - 1
  | [] => rfl
  | [_] => rfl
  | a :: b :: t => by
    simp only [diffs, List.length_cons, diffs_length (b :: t)]
    omega

theorem diffs_sum : ∀ l : List Int, (diffs l).sum = l.getLast?.getD 0 - l.head?.getD 0
  | [] => by simp [diffs]
  | [a] => by simp [diffs]
  | a :: b :: t => by
    have ih := diffs_sum (b :: t)
    simp only [diffs, List.sum_cons, ih, List.getLast?_cons_cons]
    simp only [List.head?_cons, Option.getD_some]
    omega

theorem linNodes_length (off : Int) (n : Nat) : (linNodes off n).length = n + 1 := by
  rw [linNodes, List.length_map, List.length_range]

theorem linNodes_head (off : Int) (n : Nat) : (linNodes off n).head?.getD 0 = 0 := by
  rw [linNodes, List.range_succ_eq_map]
  simp [Int.zero_tdiv]

theorem linNodes_last (off : Int) (n : Nat) (h : 1 ≤ n) :
    (linNodes off n).getLast?.getD 0 = off := by
  have hr : List.range (n + 1) = List.range n ++ [n] := by rw [List.range_succ]
  rw [linNodes, hr, List.map_append]
  simp only [List.map_cons, List.map_nil, List.getLast?_concat, Option.getD_some]
  exact Int.mul_tdiv_cancel_left off (Int.natCast_ne_zero.mpr (by omega))

theorem compDx_length (c : ActionComponent) (fps : Nat) :
    (compDx c fps).length = nCompFrames c fps := by
  simp [compDx, diffs_length, linNodes_length]

theorem compDy_length (c : ActionComponent) (fps : Nat) :
    (compDy c fps).length = nCompFrames c fps := by
  simp [compDy, diffs_length, linNodes_length]

theorem compSprites_length (c : ActionComponent) (fps : Nat) :
    (compSprites c fps).length = nCompFrames c fps := by
  simp [compSprites]

theorem get_action_frames_dy_length (a : Action) (fps : Nat) :
    (get_action_frames a fps).dy.length = (get_action_frames a fps).dx.length := by
  unfold get_action_frames
  split
  · rfl
  · simp [List.length_flatten, List.map_map, Function.comp_def, compDx_length, compDy_length]

theorem get_action_frames_sprites_length (a : Action) (fps : Nat) :
    (get_action_frames a fps).sprites.length = (get_action_frames a fps).dx.length := by
  unfold get_action_frames
  split
  · rfl
  · simp [List.length_flatten, List.map_map, Function.comp_def, compDx_length,
      compSprites_length]

theorem actionComponent_round_trip (c : ActionComponent) :
    ActionComponent.from_dict c.to_dict = c := by
  cases c with
  | mk s d x y m dir => cases s; rfl

theorem action_round_trip (a : Action) : Action.from_dict a.to_dict = a := by
  cases a with
  | mk nm comps =>
    simp [Action.from_dict, Action.to_dict, List.map_map, Function.comp_def,
      actionComponent_round_trip]

/-! ## Claim theorems -/

/-- C3 (code_bug): the spec demands that `get_scene_actor_frames` guard the
tiling step against a zero-length sampled action track, but the code divides
by `len(action_data["dx"])` unguarded: a scene actor whose first scheduled
action has an action with zero components makes the Python code raise
`ZeroDivisionError` at `anims.py` line 113 (modelled as the
`divByZeroTrack` error). -/
theorem c3_zero_component_action_crash :
    get_scene_actor_frames exSaEmpty 60 60 = .error .divByZeroTrack := by decide

/-- C4 (confirmed): for every action component whose frame count
`int(duration_sec * fps)` is at least 1, the per-component deltas of
`get_action_frames` sum exactly to `x_offset` (and the `dy` deltas to
`y_offset`): the rounded interpolation is endpoint-exact. -/
theorem c4_component_deltas_exact (c : ActionComponent) (fps : Nat)
    (h : 1 ≤ nCompFrames c fps) :
    (compDx c fps).sum = c.x_offset ∧ (compDy c fps).sum = c.y_offset := by
  constructor
  · rw [compDx, diffs_sum, linNodes_last _ _ h, linNodes_head]
    omega
  · rw [compDy, diffs_sum, linNodes_last _ _ h, linNodes_head]
    omega

/-- Witness for C4, at the instance named by the spec: one component with
`x_offset = 10`, `duration_sec = 1.0`, sampled at `fps = 60`, gives a `dx`
array whose total is exactly 10. -/
theorem c4_component_deltas_exact_witness :
    1 ≤ nCompFrames exComp10 60 ∧ (compDx exComp10 60).sum = 10 :=
  ⟨by decide, (c4_component_deltas_exact exComp10 60 (by decide)).1⟩

/-- C8 (confirmed): round-tripping an `Actor` through the JSON document
format (`Actor.from_dict (actor.to_dict())`) reproduces the actor exactly:
every scalar field of the actor, its actions and their components, and the
sprite raster content carried through the (lossless) PNG re-encode. -/
theorem c8_actor_round_trip (a : Actor) : Actor.from_dict a.to_dict = a := by
  cases a with
  | mk nm acts =>
    simp [Actor.from_dict, Actor.to_dict, List.map_map, Function.comp_def,
      action_round_trip]

/-- C10 (confirmed): an action component whose frame count
`int(duration_sec * fps)` is zero contributes no frames, no deltas and no
sprites: `get_action_frames` gives the same result with the component
removed, so its `x_offset` / `y_offset` are silently dropped. -/
theorem c10_zero_frame_component_dropped (nm : String) (l1 l2 : List ActionComponent)
    (c : ActionComponent) (fps : Nat) (h : nCompFrames c fps = 0) :
    get_action_frames ⟨nm, l1 ++ c :: l2⟩ fps = get_action_frames ⟨nm, l1 ++ l2⟩ fps := by
  have hdx : compDx c fps = [] := by rw [compDx, h]; rfl
  have hdy : compDy c fps = [] := by rw [compDy, h]; rfl
  have hsp : compSprites c fps = [] := by rw [compSprites, h]; rfl
  by_cases hnil : l1 ++ l2 = []
  · obtain ⟨h1, h2⟩ := List.append_eq_nil.mp hnil
    subst h1; subst h2
    simp [get_action_frames, hdx, hdy, hsp]
  · have hne : l1 ++ c :: l2 ≠ [] := by
      cases l1 <;> simp
    rw [get_action_frames, get_action_frames, if_neg hne, if_neg hnil]
    simp [List.map_append, List.flatten_append, hdx, hdy, hsp]

theorem exceptBind_ok {α β : Type} {e : Except RenderErr α} {f : α → Except RenderErr β}
    {b : β} (h : e.bind f = .ok b) : ∃ a, e = .ok a ∧ f a = .ok b := by
  cases e with
  | error err => exact absurd h (by simp [Except.bind])
  | ok a => exact ⟨a, rfl, h⟩

theorem cropX_spec (bg_w : Nat) (cam_w camx : Int) (h : cam_w ≤ (bg_w : ℤ)) :
    0 ≤ (cropX bg_w cam_w camx).1 ∧ (cropX bg_w cam_w camx).2 ≤ (bg_w : ℤ) ∧
      (cropX bg_w cam_w camx).2 - (cropX bg_w cam_w camx).1 = cam_w := by
  simp only [cropX]
  generalize cam_w.fdiv 2 = q
  split
  · simp
    omega
  · split
    · simp only
      refine ⟨by omega, by omega, by omega⟩
    · simp only
      refine ⟨by omega, by omega, by omega⟩

theorem cropY_spec (bg_h : Nat) (cam_h camy : Int) (h : cam_h ≤ (bg_h : ℤ)) :
    0 ≤ (cropY bg_h cam_h camy).1 ∧ (cropY bg_h cam_h camy).2 ≤ (bg_h : ℤ) ∧
      (cropY bg_h cam_h camy).2 - (cropY bg_h cam_h camy).1 = cam_h := by
  simp only [cropY]
  generalize cam_h.fdiv 2 = q
  split
  · simp
    omega
  · split
    · simp only
      refine ⟨by omega, by omega, by omega⟩
    · simp only
      refine ⟨by omega, by omega, by omega⟩

theorem lookupOrSample_lookup (cache : List (String × ActionFrames))
    (sched : ScheduledAction) (fps : Nat) :
    ((lookupOrSample cache sched fps).2.lookup sched.action.name).isSome = true := by
  unfold lookupOrSample
  rcases h : cache.lookup sched.action.name with _ | d
  · simp [List.lookup]
  · simp [h]

theorem saStep_ok_cache {fps : Nat} {st st' : SAWalk} {s : ScheduledAction}
    (h : saStep fps st s = .ok st') :
    (st'.cache.lookup s.action.name).isSome = true := by
  have hc := lookupOrSample_lookup st.cache s fps
  simp only [saStep] at h
  repeat' split at h
  all_goals first
    | exact Except.noConfusion h
    | (simp only [Except.ok.injEq] at h; rw [← h]; exact hc)

theorem saStep_hit {fps : Nat} {st : SAWalk} (s s' : ScheduledAction)
    (hn : s.action.name = s'.action.name)
    (hh : (st.cache.lookup s'.action.name).isSome = true)
    (hd : s.duration_sec = s'.duration_sec)
    (ho : s.start_offset_sec = s'.start_offset_sec)
    (hv : s.is_visible = s'.is_visible) :
    saStep fps st s = saStep fps st s' := by
  obtain ⟨d, hd2⟩ := Option.isSome_iff_exists.mp hh
  unfold saStep lookupOrSample
  rw [hn, hd2, hd, ho, hv]

theorem saWalk_cons (n fps : Nat) (s : ScheduledAction) (rest : List ScheduledAction)
    (st : SAWalk) :
    saWalk n fps (s :: rest) st =
      if (n : ℤ) ≤ st.curr_frame then .ok st
      else (saStep fps st s).bind (saWalk n fps rest) := rfl

/-- C9 (confirmed): within one call of `get_scene_actor_frames`, sampled
action tracks are memoized by action name alone: when a second scheduled
slot's action has the same name as the first slot's, the second slot is
rendered from the cached samples of the first slot's action — replacing the
second slot's action by the first slot's action changes nothing, whatever
the second action's own components are. -/
theorem c9_cache_keyed_by_name_alone (act : Actor) (sx sy : Int)
    (s1 : ScheduledAction) (a2 : Action) (d o : Q) (v : Bool) (n fps : Nat)
    (hname : a2.name = s1.action.name) :
    get_scene_actor_frames ⟨act, sx, sy, [s1, ⟨a2, d, o, v⟩]⟩ n fps =
      get_scene_actor_frames ⟨act, sx, sy, [s1, ⟨s1.action, d, o, v⟩]⟩ n fps := by
  have hwalk : ∀ st0 : SAWalk, saWalk n fps [s1, ⟨a2, d, o, v⟩] st0 =
      saWalk n fps [s1, ⟨s1.action, d, o, v⟩] st0 := by
    intro st0
    rw [saWalk_cons, saWalk_cons]
    by_cases hc0 : (n : ℤ) ≤ st0.curr_frame
    · rw [if_pos hc0, if_pos hc0]
    · rw [if_neg hc0, if_neg hc0]
      rcases h1 : saStep fps st0 s1 with e | st1
      · rfl
      · simp only [Except.bind]
        rw [saWalk_cons, saWalk_cons]
        by_cases hc1 : (n : ℤ) ≤ st1.curr_frame
        · rw [if_pos hc1, if_pos hc1]
        · rw [if_neg hc1, if_neg hc1]
          have hcache : (st1.cache.lookup s1.action.name).isSome = true :=
            saStep_ok_cache h1
          have hstep : saStep fps st1 ⟨a2, d, o, v⟩ = saStep fps st1 ⟨s1.action, d, o, v⟩ :=
            saStep_hit _ _ hname hcache rfl rfl rfl
          rw [hstep]
  unfold get_scene_actor_frames
  rw [hwalk initSAWalk]

/-- Witness for C9: the second slot names the cached action "walk" but
carries a structurally different action — here one with zero components,
which on its own would crash the sampler (see the zero-division claim) —
and the walk still renders it from the first slot's cached samples. -/
theorem c9_cache_keyed_by_name_alone_witness :
    get_scene_actor_frames
        ⟨⟨"a", []⟩, 0, 0, [⟨exAct10, Qint 1, Qint 0, true⟩, ⟨⟨"walk", []⟩, Qint 1, Qint 0, true⟩]⟩ 4 2 =
      get_scene_actor_frames
        ⟨⟨"a", []⟩, 0, 0, [⟨exAct10, Qint 1, Qint 0, true⟩, ⟨exAct10, Qint 1, Qint 0, true⟩]⟩ 4 2 :=
  c9_cache_keyed_by_name_alone ⟨"a", []⟩ 0 0 ⟨exAct10, Qint 1, Qint 0, true⟩
    ⟨"walk", []⟩ (Qint 1) (Qint 0) true 4 2 rfl

/-- Witness for C10: a 1/200-second component at fps 60 samples to zero
frames, and dropping it leaves the action's track unchanged. -/
theorem c10_zero_frame_component_dropped_witness :
    nCompFrames (ActionComponent.mk exSprite (Qfrac 1 200) 7 3 none none) 60 = 0 ∧
    get_action_frames ⟨"w", [exComp10, ActionComponent.mk exSprite (Qfrac 1 200) 7 3 none none]⟩ 60 =
      get_action_frames ⟨"w", [exComp10]⟩ 60 :=
  ⟨by decide,
   c10_zero_frame_component_dropped "w" [exComp10] []
     (ActionComponent.mk exSprite (Qfrac 1 200) 7 3 none none) 60 (by decide)⟩

theorem camStep_unlinked_spec (info : List (SceneActor × ActorTrack))
    (fps : Nat) (st : CamWalk) (move : CameraMove) (hl : move.linked_sa = none)
    (hspan : 0 ≤ Q.trunc ((move.duration_sec.add st.curr_time).natMul fps) - st.curr_frame) :
    ∃ st2, camStep info fps st move = .ok st2 ∧
      st2.curr_frame = Q.trunc ((move.duration_sec.add st.curr_time).natMul fps) ∧
      st2.x_list.map List.length = st.x_list.map List.length ++
        [(Q.trunc ((move.duration_sec.add st.curr_time).natMul fps) - st.curr_frame).toNat + 1] ∧
      st2.y_list.map List.length = st.y_list.map List.length ++
        [(Q.trunc ((move.duration_sec.add st.curr_time).natMul fps) - st.curr_frame).toNat + 1] ∧
      st2.curr_time = st.curr_time.add move.duration_sec := by
  unfold camStep
  rw [hl]
  dsimp only
  rw [if_neg (not_lt.mpr hspan)]
  simp only [Except.bind]
  by_cases hz : Q.trunc ((move.duration_sec.add st.curr_time).natMul fps) - st.curr_frame = 0
  · rw [if_pos hz]
    refine ⟨_, rfl, by simp, ?_, ?_, rfl⟩ <;>
      simp [List.map_append, linNodes_length, hz]
  · rw [if_neg hz]
    have hx : ((linNodes move.x (Q.trunc ((move.duration_sec.add st.curr_time).natMul fps) -
        st.curr_frame).toNat).map (· + st.x)).getLast?.isSome = true := by
      rw [List.getLast?_isSome]
      intro hnil
      have := congrArg List.length hnil
      simp [linNodes_length] at this
    have hy : ((linNodes move.y (Q.trunc ((move.duration_sec.add st.curr_time).natMul fps) -
        st.curr_frame).toNat).map (· + st.y)).getLast?.isSome = true := by
      rw [List.getLast?_isSome]
      intro hnil
      have := congrArg List.length hnil
      simp [linNodes_length] at this
    obtain ⟨lx, hlx⟩ := Option.isSome_iff_exists.mp hx
    obtain ⟨ly, hly⟩ := Option.isSome_iff_exists.mp hy
    rw [hlx, hly]
    refine ⟨_, rfl, by simp, ?_, ?_, rfl⟩ <;>
      simp [List.map_append, linNodes_length]

/-- C5 (corrected): an unlinked camera move whose span
`n_move_frames = int((time_cursor + duration_sec) * fps) - frame_cursor` is
nonnegative appends one sample list of `span + 1` entries — all `span + 1`
interpolation nodes of `np.linspace(0, move.x, span + 1)`, the first node
included — while the frame cursor advances by only `span`.  (The original
claim, that exactly `span` samples are appended with the first node left
implicit, is refuted by `c5_span_plus_one_cex`.) -/
theorem c5_unlinked_emits_span_plus_one (info : List (SceneActor × ActorTrack))
    (fps : Nat) (st : CamWalk) (move : CameraMove) (hl : move.linked_sa = none)
    (hspan : 0 ≤ Q.trunc ((move.duration_sec.add st.curr_time).natMul fps) - st.curr_frame) :
    ∃ st2, camStep info fps st move = .ok st2 ∧
      st2.curr_frame = Q.trunc ((move.duration_sec.add st.curr_time).natMul fps) ∧
      st2.x_list.map List.length = st.x_list.map List.length ++
        [(Q.trunc ((move.duration_sec.add st.curr_time).natMul fps) - st.curr_frame).toNat + 1] ∧
      st2.y_list.map List.length = st.y_list.map List.length ++
        [(Q.trunc ((move.duration_sec.add st.curr_time).natMul fps) - st.curr_frame).toNat + 1] := by
  obtain ⟨st2, h1, h2, h3, h4, _⟩ := camStep_unlinked_spec info fps st move hl hspan
  exact ⟨st2, h1, h2, h3, h4⟩

/-- Witness for C5 at a concrete unlinked move: duration 1 s at fps 2 from
the initial state — the move spans 2 frames and appends 3 samples. -/
theorem c5_unlinked_emits_span_plus_one_witness :
    ∃ st2, camStep [] 2 exCamSt0 exMove5 = .ok st2 ∧
      st2.curr_frame = Q.trunc ((exMove5.duration_sec.add exCamSt0.curr_time).natMul 2) ∧
      st2.x_list.map List.length = exCamSt0.x_list.map List.length ++
        [(Q.trunc ((exMove5.duration_sec.add exCamSt0.curr_time).natMul 2) -
          exCamSt0.curr_frame).toNat + 1] ∧
      st2.y_list.map List.length = exCamSt0.y_list.map List.length ++
        [(Q.trunc ((exMove5.duration_sec.add exCamSt0.curr_time).natMul 2) -
          exCamSt0.curr_frame).toNat + 1] :=
  c5_unlinked_emits_span_plus_one [] 2 exCamSt0 exMove5 rfl (by decide)

/-- Counterexample for C5 as stated: a camera whose single unlinked move has
span 2 at `n_frames = 2`, fps 2.  If each unlinked move emitted exactly
`span` samples (first node implicit), the resulting track would be
`[2, 4]` with exactly `n_frames = 2` entries; the code emits all three
nodes `[0, 2, 4]`. -/
theorem c5_span_plus_one_cex :
    (get_camera_pos exCamUnlinked [] 2 2).map (fun t => t.x) = .ok [0, 2, 4] ∧
      ¬ (get_camera_pos exCamUnlinked [] 2 2).map (fun t => t.x.length) = .ok 2 := by
  exact ⟨by decide, by decide⟩

theorem camStep_linked_spec (info : List (SceneActor × ActorTrack))
    (fps : Nat) (st : CamWalk) (move : CameraMove) (sa : SceneActor) (tr : ActorTrack)
    (hl : move.linked_sa = some sa) (hlk : lookupTrack info sa = some tr)
    (hcf : 0 ≤ st.curr_frame)
    (hspan : 0 ≤ Q.trunc ((move.duration_sec.add st.curr_time).natMul fps) - st.curr_frame)
    (hfit : Q.trunc ((move.duration_sec.add st.curr_time).natMul fps) - st.curr_frame = 0 ∨
      (st.curr_frame.toNat < tr.x.length ∧ st.curr_frame.toNat < tr.y.length)) :
    ∃ st2, camStep info fps st move = .ok st2 ∧
      st2.x_list = st.x_list ++
        [pySlice tr.x st.curr_frame
          (Q.trunc ((move.duration_sec.add st.curr_time).natMul fps) - st.curr_frame)] ∧
      st2.y_list = st.y_list ++
        [pySlice tr.y st.curr_frame
          (Q.trunc ((move.duration_sec.add st.curr_time).natMul fps) - st.curr_frame)] ∧
      st2.curr_frame = Q.trunc ((move.duration_sec.add st.curr_time).natMul fps) ∧
      st2.curr_time = st.curr_time.add move.duration_sec := by
  unfold camStep
  rw [hl]
  dsimp only
  rw [if_neg (not_lt.mpr hcf), hlk]
  dsimp only
  simp only [Except.bind]
  by_cases hz : Q.trunc ((move.duration_sec.add st.curr_time).natMul fps) - st.curr_frame = 0
  · rw [if_pos hz]
    exact ⟨_, rfl, rfl, rfl, by simp, rfl⟩
  · rw [if_neg hz]
    obtain ⟨hxfit, hyfit⟩ := hfit.resolve_left hz
    have hx : (pySlice tr.x st.curr_frame
        (Q.trunc ((move.duration_sec.add st.curr_time).natMul fps) - st.curr_frame)).getLast?.isSome
        = true := by
      rw [List.getLast?_isSome]
      apply List.ne_nil_of_length_pos
      simp only [pySlice, List.length_take, List.length_drop]
      omega
    have hy : (pySlice tr.y st.curr_frame
        (Q.trunc ((move.duration_sec.add st.curr_time).natMul fps) - st.curr_frame)).getLast?.isSome
        = true := by
      rw [List.getLast?_isSome]
      apply List.ne_nil_of_length_pos
      simp only [pySlice, List.length_take, List.length_drop]
      omega
    obtain ⟨lx, hlx⟩ := Option.isSome_iff_exists.mp hx
    obtain ⟨ly, hly⟩ := Option.isSome_iff_exists.mp hy
    rw [hlx, hly]
    exact ⟨_, rfl, rfl, rfl, by simp, rfl⟩

/-- C6 (corrected): a camera move linked to a scene actor appends exactly
the actor track's slice `[frame_cursor : frame_cursor + span)` — the copied
samples are the actor's values at those frame indices, but they are placed
after whatever samples earlier moves emitted, so they only sit at the same
global indices when the preceding moves emitted exactly as many samples as
the cursor advance (each unlinked move emits one extra; see
`c6_follow_not_aligned_cex`). -/
theorem c6_linked_copies_actor_slice (info : List (SceneActor × ActorTrack))
    (fps : Nat) (st : CamWalk) (move : CameraMove) (sa : SceneActor) (tr : ActorTrack)
    (hl : move.linked_sa = some sa) (hlk : lookupTrack info sa = some tr)
    (hcf : 0 ≤ st.curr_frame)
    (hspan : 0 ≤ Q.trunc ((move.duration_sec.add st.curr_time).natMul fps) - st.curr_frame)
    (hfit : Q.trunc ((move.duration_sec.add st.curr_time).natMul fps) - st.curr_frame = 0 ∨
      (st.curr_frame.toNat < tr.x.length ∧ st.curr_frame.toNat < tr.y.length)) :
    ∃ st2, camStep info fps st move = .ok st2 ∧
      st2.x_list = st.x_list ++
        [pySlice tr.x st.curr_frame
          (Q.trunc ((move.duration_sec.add st.curr_time).natMul fps) - st.curr_frame)] ∧
      st2.y_list = st.y_list ++
        [pySlice tr.y st.curr_frame
          (Q.trunc ((move.duration_sec.add st.curr_time).natMul fps) - st.curr_frame)] ∧
      st2.curr_frame = Q.trunc ((move.duration_sec.add st.curr_time).natMul fps) := by
  obtain ⟨st2, h1, h2, h3, h4, _⟩ := camStep_linked_spec info fps st move sa tr hl hlk hcf hspan hfit
  exact ⟨st2, h1, h2, h3, h4⟩

/-- Witness for C6 at a concrete linked move: cursor at frame 1, span 2,
following a four-frame actor track — the appended camera samples are the
actor track's frames 1 and 2. -/
theorem c6_linked_copies_actor_slice_witness :
    ∃ st2, camStep [(exFollowSA, exFollowTrack)] 1 exCamSt1 exMoveLinked = .ok st2 ∧
      st2.x_list = exCamSt1.x_list ++
        [pySlice exFollowTrack.x exCamSt1.curr_frame
          (Q.trunc ((exMoveLinked.duration_sec.add exCamSt1.curr_time).natMul 1) -
            exCamSt1.curr_frame)] ∧
      st2.y_list = exCamSt1.y_list ++
        [pySlice exFollowTrack.y exCamSt1.curr_frame
          (Q.trunc ((exMoveLinked.duration_sec.add exCamSt1.curr_time).natMul 1) -
            exCamSt1.curr_frame)] ∧
      st2.curr_frame = Q.trunc ((exMoveLinked.duration_sec.add exCamSt1.curr_time).natMul 1) :=
  c6_linked_copies_actor_slice [(exFollowSA, exFollowTrack)] 1 exCamSt1 exMoveLinked
    exFollowSA exFollowTrack rfl (by decide) (by decide) (by decide)
    (Or.inr ⟨by decide, by decide⟩)

/-- Counterexample for C6 as stated: an unlinked move (span 1, emitting two
samples) followed by a move linked to an actor with track x = [0, 10, 20, 30].
The linked move starts at frame cursor 1 with span 2, so the claim demands
camera x[1] = actor x[1] = 10; the code's camera track is [0, 6, 10, 20],
whose entry at index 1 is 6. -/
theorem c6_follow_not_aligned_cex :
    (get_camera_pos exCamFollow [(exFollowSA, exFollowTrack)] 4 1).map (fun t => t.x) =
        .ok [0, 6, 10, 20] ∧
      (get_camera_pos exCamFollow [(exFollowSA, exFollowTrack)] 4 1).map
          (fun t => t.x[1]?) = .ok (some 6) ∧
      exFollowTrack.x[1]? = some 10 ∧ (6 : ℤ) ≠ 10 :=
  ⟨by decide, by decide, by decide, by decide⟩

/-- C7 (confirmed): whenever the background is at least as wide and as tall
as the camera viewport, every frame produced by the compositor crops a
rectangle lying entirely inside the background bounds whose width and height
are exactly `camera.width` and `camera.height` — the rectangle is slid,
never shrunk — so the frame has exactly `camera.width * camera.height`
pixels. -/
theorem c7_viewport_clamp (bg_w bg_h : Nat)
    (info : List (SceneActor × ActorTrack)) (cam_pos : CamTrack)
    (actors : List SceneActor) (camera : Camera) (i : Nat) (f : Frame)
    (hw : camera.width ≤ (bg_w : ℤ)) (hh : camera.height ≤ (bg_h : ℤ))
    (hok : composeFrame bg_w bg_h info cam_pos actors camera i = .ok f) :
    0 ≤ f.cam_l ∧ f.cam_r ≤ (bg_w : ℤ) ∧ f.cam_r - f.cam_l = camera.width ∧
      0 ≤ f.cam_t ∧ f.cam_b ≤ (bg_h : ℤ) ∧ f.cam_b - f.cam_t = camera.height := by
  unfold composeFrame at hok
  obtain ⟨u, hu, hrest⟩ := exceptBind_ok hok
  rcases hx : cam_pos.x[i]? with _ | cx <;> rw [hx] at hrest
  · exact Except.noConfusion hrest
  · rcases hy : cam_pos.y[i]? with _ | cy <;> rw [hy] at hrest
    · exact Except.noConfusion hrest
    · simp only [Except.ok.injEq] at hrest
      obtain ⟨hxs, hys, hxs2⟩ := cropX_spec bg_w camera.width cx hw
      obtain ⟨hts, hbs, hts2⟩ := cropY_spec bg_h camera.height cy hh
      rw [← hrest]
      exact ⟨hxs, hys, hxs2, hts, hbs, hts2⟩

/-- Witness for C7: a 100 by 100 background with a 50 by 50 camera centred
at scene origin crops exactly the rectangle `[25, 75) x [25, 75)`. -/
theorem c7_viewport_clamp_witness :
    (50 : ℤ) ≤ ((100 : Nat) : ℤ) ∧
      composeFrame 100 100 [] ⟨[0], [0]⟩ [] exCam50 0 = .ok ⟨25, 75, 25, 75⟩ ∧
      (0 ≤ (25 : ℤ) ∧ (75 : ℤ) ≤ ((100 : Nat) : ℤ) ∧ (75 : ℤ) - 25 = exCam50.width ∧
        0 ≤ (25 : ℤ) ∧ (75 : ℤ) ≤ ((100 : Nat) : ℤ) ∧ (75 : ℤ) - 25 = exCam50.height) :=
  ⟨by decide, by decide,
   c7_viewport_clamp 100 100 [] ⟨[0], [0]⟩ [] exCam50 0 ⟨25, 75, 25, 75⟩
     (by decide) (by decide) (by decide)⟩

/-! ## Walk-length lemmas for the track-length and render-entry claims -/

theorem camWalk_cons (info : List (SceneActor × ActorTrack)) (n fps : Nat)
    (m : CameraMove) (rest : List CameraMove) (st : CamWalk) :
    camWalk info n fps (m :: rest) st =
      if (n : ℤ) ≤ st.curr_frame then .ok st
      else (camStep info fps st m).bind (camWalk info n fps rest) := rfl

theorem lookupTrack_mem : ∀ (info : List (SceneActor × ActorTrack)) (sa : SceneActor)
    (tr : ActorTrack), lookupTrack info sa = some tr → (sa, tr) ∈ info
  | [], sa, tr, h => by simp [lookupTrack] at h
  | p :: rest, sa, tr, h => by
    rw [lookupTrack] at h
    split at h
    · rename_i heq
      simp only [Option.some.injEq] at h
      have hp : (sa, tr) = p := by rw [← heq, ← h]
      rw [List.mem_cons]
      exact Or.inl hp
    · right
      exact lookupTrack_mem rest sa tr h

theorem pySlice_length {α : Type} (l : List α) (a b : Int) :
    (pySlice l a b).length = min b.toNat (l.length - a.toNat) := by
  simp [pySlice, List.length_take, List.length_drop]

theorem flatten_replicate_length {α : Type} (k : Nat) (l : List α) :
    (List.replicate k l).flatten.length = k * l.length := by
  induction k with
  | zero => simp
  | succ k ih =>
    rw [List.replicate_succ]
    simp only [List.flatten_cons, List.length_append, ih]
    ring

theorem ceilD_le_mul (a b : Int) (hb : 0 < b) : a ≤ ceilD a b * b := by
  unfold ceilD
  have h := Int.ediv_mul_le (-a) (by omega : b ≠ 0)
  have h2 : -(-a / b * b) = -(-a / b) * b := by ring
  omega

theorem cacheGood_lookup : ∀ (c : List (String × ActionFrames)), CacheGood c →
    ∀ (k : String) (v : ActionFrames), c.lookup k = some v →
    v.dy.length = v.dx.length ∧ v.sprites.length = v.dx.length
  | [], _, k, v, h => by simp [List.lookup] at h
  | p :: rest, hc, k, v, h => by
    obtain ⟨k', v'⟩ := p
    rw [List.lookup] at h
    rcases hbeq : k == k' with _ | _ <;> rw [hbeq] at h
    · exact cacheGood_lookup rest (fun q hq => hc q (List.mem_cons_of_mem _ hq)) k v h
    · simp only [Option.some.injEq] at h
      have := hc (k', v') (List.mem_cons_self _ _)
      rw [h] at this
      exact this

theorem lookupOrSample_good (c : List (String × ActionFrames)) (s : ScheduledAction)
    (fps : Nat) (hc : CacheGood c) :
    ((lookupOrSample c s fps).1.dy.length = (lookupOrSample c s fps).1.dx.length ∧
      (lookupOrSample c s fps).1.sprites.length = (lookupOrSample c s fps).1.dx.length) ∧
      CacheGood (lookupOrSample c s fps).2 := by
  unfold lookupOrSample
  rcases h : c.lookup s.action.name with _ | d
  · refine ⟨⟨get_action_frames_dy_length _ _, get_action_frames_sprites_length _ _⟩, ?_⟩
    intro p hp
    rcases List.mem_cons.mp hp with hp1 | hp2
    · rw [hp1]
      exact ⟨get_action_frames_dy_length _ _, get_action_frames_sprites_length _ _⟩
    · exact hc p hp2
  · exact ⟨cacheGood_lookup c hc _ _ h, hc⟩

theorem exceptMap_ok {α β : Type} (f : α → Except RenderErr β) :
    ∀ l : List α, (∀ a ∈ l, ∃ b, f a = .ok b) →
    ∃ res, exceptMap f l = .ok res ∧ res.length = l.length
  | [], _ => ⟨[], rfl, rfl⟩
  | a :: l, h => by
    obtain ⟨b, hb⟩ := h a (List.mem_cons_self _ _)
    obtain ⟨res, hres, hlen⟩ := exceptMap_ok f l (fun x hx => h x (List.mem_cons_of_mem _ hx))
    refine ⟨b :: res, ?_, by simp [hlen]⟩
    rw [exceptMap, hb, hres]
    rfl

theorem saStep_good {fps : Nat} {st st' : SAWalk} {sched : ScheduledAction}
    (hg : SAWalkGood st) (h : saStep fps st sched = .ok st') :
    SAWalkGood st' ∧ st'.dxs.length = st.dxs.length + 1 := by
  obtain ⟨hdata, hcache⟩ := lookupOrSample_good st.cache sched fps hg.2.2
  simp only [saStep] at h
  split at h
  case isTrue => exact Except.noConfusion h
  case isFalse hoff =>
    split at h
    case isTrue => exact Except.noConfusion h
    case isFalse hL =>
      split at h
      case isTrue => exact Except.noConfusion h
      case isFalse hcyc =>
        simp only [Except.ok.injEq] at h
        subst h
        set data := (lookupOrSample st.cache sched fps).1 with hdata_def
        set off := Q.trunc (sched.start_offset_sec.natMul fps) with hoff_def
        set span := Q.trunc ((st.curr_time.add sched.duration_sec).natMul fps) -
          st.curr_frame with hspan_def
        set cyc := ceilD (off + span) data.dx.length with hcyc_def
        have hLpos : (0 : ℤ) < (data.dx.length : ℤ) := by
          have := Nat.pos_of_ne_zero hL
          exact_mod_cast this
        have hceil : off + span ≤ cyc * (data.dx.length : ℤ) :=
          ceilD_le_mul (off + span) (data.dx.length : ℤ) hLpos
        have hcycpos : 0 ≤ cyc := by omega
        have hM : off + span ≤ ((cyc.toNat * data.dx.length : ℕ) : ℤ) := by
          push_cast [Int.toNat_of_nonneg hcycpos]
          exact hceil
        have hadx : (pySlice (List.replicate cyc.toNat data.dx).flatten off span).length
            = min span.toNat (cyc.toNat * data.dx.length - off.toNat) := by
          rw [pySlice_length, flatten_replicate_length]
        have hady : (pySlice (List.replicate cyc.toNat data.dy).flatten off span).length
            = min span.toNat (cyc.toNat * data.dx.length - off.toNat) := by
          rw [pySlice_length, flatten_replicate_length, hdata.1]
        have hasp : ((pySlice (List.replicate cyc.toNat data.sprites).flatten off span).map
            some).length = min span.toNat (cyc.toNat * data.dx.length - off.toNat) := by
          rw [List.length_map, pySlice_length, flatten_replicate_length, hdata.2]
        have hrep : (List.replicate span.toNat (none : Option Image)).length
            = min span.toNat (cyc.toNat * data.dx.length - off.toNat) := by
          rw [List.length_replicate]
          omega
        refine ⟨⟨?_, ?_, hcache⟩, by simp⟩
        · simp only [List.map_append, List.map_cons, List.map_nil, hg.1]
          rw [hady, hadx]
        · simp only [List.length_append, List.flatten_append, List.flatten_cons,
            List.flatten_nil, List.append_nil, hg.2.1]
          congr 1
          split
          · rw [hasp, hadx]
          · rw [hrep, hadx]

theorem initSAWalk_good : SAWalkGood initSAWalk :=
  ⟨rfl, rfl, fun p hp => absurd hp (by simp [initSAWalk])⟩

theorem saWalk_good {n fps : Nat} : ∀ (scheds : List ScheduledAction) (st st' : SAWalk),
    SAWalkGood st → saWalk n fps scheds st = .ok st' → SAWalkGood st'
  | [], st, st', hg, h => by
    simp only [saWalk, Except.ok.injEq] at h
    rw [← h]
    exact hg
  | sched :: rest, st, st', hg, h => by
    rw [saWalk_cons] at h
    split at h
    · simp only [Except.ok.injEq] at h
      rw [← h]
      exact hg
    · obtain ⟨st1, h1, h2⟩ := exceptBind_ok h
      exact saWalk_good rest st1 st' (saStep_good hg h1).1 h2

theorem cumsum_length (l : List Int) : (cumsum l).length = l.length := by
  simp [cumsum, List.length_scanl]

theorem camStep_maps {info : List (SceneActor × ActorTrack)} {fps : Nat}
    {st st' : CamWalk} {move : CameraMove}
    (hinfo : ∀ p ∈ info, (p.2).x.length = (p.2).y.length)
    (hmaps : st.x_list.map List.length = st.y_list.map List.length)
    (h : camStep info fps st move = .ok st') :
    st'.x_list.map List.length = st'.y_list.map List.length := by
  unfold camStep at h
  rcases hl : move.linked_sa with _ | sa <;> rw [hl] at h <;> dsimp only at h
  · split at h
    · exact Except.noConfusion h
    · simp only [Except.bind] at h
      split at h
      · simp only [Except.ok.injEq] at h
        rw [← h]
        simp [List.map_append, hmaps, linNodes_length]
      · split at h
        · simp only [Except.ok.injEq] at h
          rw [← h]
          simp [List.map_append, hmaps, linNodes_length]
        · exact Except.noConfusion h
  · split at h
    · exact Except.noConfusion h
    · rcases hlk : lookupTrack info sa with _ | tr <;> rw [hlk] at h <;> dsimp only at h
      · exact Except.noConfusion h
      · have hxy : tr.x.length = tr.y.length :=
          hinfo (sa, tr) (lookupTrack_mem info sa tr hlk)
        simp only [Except.bind] at h
        split at h
        · simp only [Except.ok.injEq] at h
          rw [← h]
          simp [List.map_append, hmaps, pySlice_length, hxy]
        · split at h
          · simp only [Except.ok.injEq] at h
            rw [← h]
            simp [List.map_append, hmaps, pySlice_length, hxy]
          · exact Except.noConfusion h

theorem camWalk_maps_eq {info : List (SceneActor × ActorTrack)} {n fps : Nat}
    (hinfo : ∀ p ∈ info, (p.2).x.length = (p.2).y.length) :
    ∀ (moves : List CameraMove) (st st' : CamWalk),
    st.x_list.map List.length = st.y_list.map List.length →
    camWalk info n fps moves st = .ok st' →
    st'.x_list.map List.length = st'.y_list.map List.length
  | [], st, st', hmaps, h => by
    simp only [camWalk, Except.ok.injEq] at h
    rw [← h]
    exact hmaps
  | move :: rest, st, st', hmaps, h => by
    rw [camWalk_cons] at h
    split at h
    · simp only [Except.ok.injEq] at h
      rw [← h]
      exact hmaps
    · obtain ⟨st1, h1, h2⟩ := exceptBind_ok h
      exact camWalk_maps_eq hinfo rest st1 st' (camStep_maps hinfo hmaps h1) h2

theorem get_camera_pos_len {camera : Camera} {info : List (SceneActor × ActorTrack)}
    {n fps : Nat} {ct : CamTrack}
    (hinfo : ∀ p ∈ info, (p.2).x.length = (p.2).y.length)
    (h : get_camera_pos camera info n fps = .ok ct) :
    n ≤ ct.x.length ∧ ct.x.length = ct.y.length := by
  unfold get_camera_pos at h
  obtain ⟨st, hw, hpost⟩ := exceptBind_ok h
  have hmaps : st.x_list.map List.length = st.y_list.map List.length :=
    camWalk_maps_eq hinfo camera.moves _ st rfl hw
  have hflat : st.x_list.flatten.length = st.y_list.flatten.length := by
    rw [List.length_flatten, List.length_flatten, hmaps]
  split at hpost
  · simp only [Except.ok.injEq] at hpost
    rw [← hpost]
    simp
  · dsimp only at hpost
    split at hpost
    · simp only [Except.ok.injEq] at hpost
      rw [← hpost]
      simp
    · rename_i hxne
      split at hpost
      · rename_i lx ly hlx hly
        simp only [Except.ok.injEq] at hpost
        rw [← hpost]
        have hxpos : 0 < st.x_list.flatten.length :=
          List.length_pos.mpr hxne
        constructor
        · simp only [List.length_append, List.length_replicate]
          omega
        · simp only [List.length_append, List.length_replicate]
          omega
      · exact Except.noConfusion hpost

theorem camWalk_ok {info : List (SceneActor × ActorTrack)} {n fps : Nat}
    (hinfo : ∀ p ∈ info, (p.2).x.length = n ∧ (p.2).y.length = n) :
    ∀ (moves : List CameraMove) (st : CamWalk),
    (∀ m ∈ moves, 0 ≤ m.duration_sec.num ∧
      ∀ sa, m.linked_sa = some sa → ∃ tr, lookupTrack info sa = some tr) →
    st.curr_frame = Q.trunc (st.curr_time.natMul fps) → 0 ≤ st.curr_time.num →
    ∃ st', camWalk info n fps moves st = .ok st'
  | [], st, _, _, _ => ⟨st, rfl⟩
  | move :: rest, st, hm, hcf, ht => by
    rw [camWalk_cons]
    by_cases hstop : (n : ℤ) ≤ st.curr_frame
    · exact ⟨st, by rw [if_pos hstop]⟩
    · rw [if_neg hstop]
      have hd := (hm move (List.mem_cons_self _ _)).1
      have hspan : 0 ≤ Q.trunc ((move.duration_sec.add st.curr_time).natMul fps) -
          st.curr_frame := by
        rw [hcf]
        have := Q.trunc_natMul_le_add st.curr_time move.duration_sec fps ht hd
        omega
      have hcf0 : 0 ≤ st.curr_frame := by
        rw [hcf]
        apply Q.trunc_nonneg
        dsimp only [Q.natMul]
        exact mul_nonneg ht (by positivity)
      have hmrest : ∀ m ∈ rest, 0 ≤ m.duration_sec.num ∧
          ∀ sa, m.linked_sa = some sa → ∃ tr, lookupTrack info sa = some tr :=
        fun m hm2 => hm m (List.mem_cons_of_mem _ hm2)
      rcases hl : move.linked_sa with _ | sa
      · obtain ⟨st2, hok, hcf2, _, _, htime2⟩ :=
          camStep_unlinked_spec info fps st move hl hspan
        rw [hok]
        simp only [Except.bind]
        have hcf2' : st2.curr_frame = Q.trunc (st2.curr_time.natMul fps) := by
          rw [hcf2, htime2, Q.add_comm st.curr_time move.duration_sec]
        have ht2 : 0 ≤ st2.curr_time.num := by
          rw [htime2]
          exact Q.add_num_nonneg ht hd
        exact camWalk_ok hinfo rest st2 hmrest hcf2' ht2
      · obtain ⟨tr, hlk⟩ := (hm move (List.mem_cons_self _ _)).2 sa hl
        obtain ⟨htrx, htry⟩ := hinfo (sa, tr) (lookupTrack_mem info sa tr hlk)
        have hfit : Q.trunc ((move.duration_sec.add st.curr_time).natMul fps) -
            st.curr_frame = 0 ∨
            (st.curr_frame.toNat < tr.x.length ∧ st.curr_frame.toNat < tr.y.length) := by
          rw [htrx, htry]
          omega
        obtain ⟨st2, hok, _, _, hcf2, htime2⟩ :=
          camStep_linked_spec info fps st move sa tr hl hlk hcf0 hspan hfit
        rw [hok]
        simp only [Except.bind]
        have hcf2' : st2.curr_frame = Q.trunc (st2.curr_time.natMul fps) := by
          rw [hcf2, htime2, Q.add_comm st.curr_time move.duration_sec]
        have ht2 : 0 ≤ st2.curr_time.num := by
          rw [htime2]
          exact Q.add_num_nonneg ht hd
        exact camWalk_ok hinfo rest st2 hmrest hcf2' ht2

theorem get_camera_pos_ok (camera : Camera) (info : List (SceneActor × ActorTrack))
    (n fps : Nat)
    (hinfo : ∀ p ∈ info, (p.2).x.length = n ∧ (p.2).y.length = n)
    (hmv : ∀ m ∈ camera.moves, 0 ≤ m.duration_sec.num ∧
      ∀ sa, m.linked_sa = some sa → ∃ tr, lookupTrack info sa = some tr) :
    ∃ ct, get_camera_pos camera info n fps = .ok ct ∧
      n ≤ ct.x.length ∧ n ≤ ct.y.length := by
  obtain ⟨st, hw⟩ := camWalk_ok hinfo camera.moves
    ⟨camera.start_x, camera.start_y, [], [], 0, Qint 0⟩ hmv
    (by simp only [Qint, Q.natMul, Q.trunc]; norm_num) (by simp [Qint])
  unfold get_camera_pos
  rw [hw]
  simp only [Except.bind]
  have hmaps := camWalk_maps_eq
    (fun p hp => ((hinfo p hp).1.trans (hinfo p hp).2.symm)) camera.moves _ st rfl hw
  have hflat : st.x_list.flatten.length = st.y_list.flatten.length := by
    rw [List.length_flatten, List.length_flatten, hmaps]
  split
  · exact ⟨_, rfl, by simp, by simp⟩
  · split
    · exact ⟨_, rfl, by simp, by simp⟩
    · rename_i hxne
      have hxpos : 0 < st.x_list.flatten.length := List.length_pos.mpr hxne
      have hyne : st.y_list.flatten ≠ [] := by
        apply List.ne_nil_of_length_pos
        omega
      obtain ⟨lx, hlx⟩ := Option.isSome_iff_exists.mp (List.getLast?_isSome.mpr hxne)
      obtain ⟨ly, hly⟩ := Option.isSome_iff_exists.mp (List.getLast?_isSome.mpr hyne)
      rw [hlx, hly]
      refine ⟨_, rfl, ?_, ?_⟩ <;>
        simp only [List.length_append, List.length_replicate] <;> omega

theorem buildActorFrames_ok (n fps : Nat) : ∀ (actors : List SceneActor),
    (∀ sa ∈ actors, ∃ tr, get_scene_actor_frames sa n fps = .ok tr) →
    ∃ info, buildActorFrames actors n fps = .ok info ∧
      (∀ p ∈ info, p.1 ∈ actors ∧ get_scene_actor_frames p.1 n fps = .ok p.2) ∧
      (∀ sa ∈ actors, ∃ tr, lookupTrack info sa = some tr)
  | [], _ =>
    ⟨[], rfl, fun p hp => absurd hp (by simp),
     fun sa hsa => absurd hsa (by simp)⟩
  | sa :: rest, h => by
    obtain ⟨tr, htr⟩ := h sa (List.mem_cons_self _ _)
    obtain ⟨info, hinfo, hprop, hlk⟩ :=
      buildActorFrames_ok n fps rest (fun x hx => h x (List.mem_cons_of_mem _ hx))
    refine ⟨(sa, tr) :: info, ?_, ?_, ?_⟩
    · unfold buildActorFrames at hinfo ⊢
      rw [exceptMap, htr, hinfo]
      rfl
    · intro p hp
      rcases List.mem_cons.mp hp with h1 | h2
      · rw [h1]
        exact ⟨List.mem_cons_self _ _, htr⟩
      · exact ⟨List.mem_cons_of_mem _ (hprop p h2).1, (hprop p h2).2⟩
    · intro sa' hsa'
      rw [lookupTrack]
      split
      · exact ⟨tr, rfl⟩
      · rename_i hne
        have hmem : sa' ∈ rest := by
          rcases List.mem_cons.mp hsa' with h1 | h2
          · exact absurd h1.symm (by simpa using hne)
          · exact h2
        exact hlk sa' hmem

theorem composeFrame_ok {bg_w bg_h : Nat} {info : List (SceneActor × ActorTrack)}
    {cam_pos : CamTrack} {actors : List SceneActor} {camera : Camera} {i n : Nat}
    (hn : i < n)
    (hacts : ∀ sa ∈ actors, ∃ tr, lookupTrack info sa = some tr ∧
      n ≤ tr.sprites.length ∧ n ≤ tr.x.length ∧ n ≤ tr.y.length)
    (hcx : n ≤ cam_pos.x.length) (hcy : n ≤ cam_pos.y.length) :
    ∃ f, composeFrame bg_w bg_h info cam_pos actors camera i = .ok f := by
  unfold composeFrame
  obtain ⟨res, hres, _⟩ := exceptMap_ok (pasteCheck info i) actors.reverse
    (fun sa hsa => by
      obtain ⟨tr, hlk, hs, hx, hy⟩ := hacts sa (List.mem_reverse.mp hsa)
      refine ⟨(), ?_⟩
      unfold pasteCheck
      rw [hlk]
      dsimp only
      rw [List.getElem?_eq_getElem (lt_of_lt_of_le hn hs)]
      rcases tr.sprites[i] with _ | s
      · rfl
      · simp [List.getElem?_eq_getElem (lt_of_lt_of_le hn hx),
          List.getElem?_eq_getElem (lt_of_lt_of_le hn hy)])
  rw [hres]
  simp only [Except.bind]
  rw [List.getElem?_eq_getElem (lt_of_lt_of_le hn hcx),
    List.getElem?_eq_getElem (lt_of_lt_of_le hn hcy)]
  exact ⟨_, rfl⟩

theorem compose_frames_ok (bg : Image) (info : List (SceneActor × ActorTrack))
    (cam_pos : CamTrack) (actors : List SceneActor) (camera : Camera) (n : Nat)
    (hacts : ∀ sa ∈ actors, ∃ tr, lookupTrack info sa = some tr ∧
      n ≤ tr.sprites.length ∧ n ≤ tr.x.length ∧ n ≤ tr.y.length)
    (hcx : n ≤ cam_pos.x.length) (hcy : n ≤ cam_pos.y.length) :
    ∃ frames, compose_frames bg info cam_pos actors camera n = .ok frames ∧
      frames.length = n := by
  unfold compose_frames
  obtain ⟨res, hres, hlen⟩ := exceptMap_ok _ (List.range n)
    (fun i hi => composeFrame_ok (List.mem_range.mp hi) hacts hcx hcy)
  exact ⟨res, hres, by rw [hlen, List.length_range]⟩

/-- C2 (corrected): resolved track lengths.  First part: an actor track
returned by `get_scene_actor_frames` has exactly `n_frames` entries in each
of x, y and sprites whenever the walk appended at most as many slot arrays
as frames (`walkBalanced`); without that condition the idle padding — which
counts slots (`len(dx)`), not frames — can leave the track strictly shorter
than `n_frames` (refuted as originally stated by `c2_short_actor_track_cex`).
Second part: a camera track returned by `get_camera_pos` has at least
`n_frames` entries in x and y (equal lengths), but can have more, because an
unlinked move emits `span + 1` samples and the result is never truncated. -/
theorem c2_track_lengths :
    (∀ (sa : SceneActor) (n_frames fps : Nat) (tr : ActorTrack),
      walkBalanced sa n_frames fps = true →
      get_scene_actor_frames sa n_frames fps = .ok tr →
      tr.x.length = n_frames ∧ tr.y.length = n_frames ∧ tr.sprites.length = n_frames) ∧
    (∀ (camera : Camera) (info : List (SceneActor × ActorTrack)) (n_frames fps : Nat)
      (ct : CamTrack),
      (∀ p ∈ info, (p.2).x.length = (p.2).y.length) →
      get_camera_pos camera info n_frames fps = .ok ct →
      n_frames ≤ ct.x.length ∧ ct.x.length = ct.y.length) := by
  constructor
  · intro sa n_frames fps tr hbal hok
    unfold get_scene_actor_frames at hok
    obtain ⟨st, hw, hpost⟩ := exceptBind_ok hok
    have hgood := saWalk_good sa.scheduled_actions initSAWalk st initSAWalk_good hw
    have hbal2 : st.dxs.length ≤ st.dxs.flatten.length := by
      unfold walkBalanced at hbal
      rw [hw] at hbal
      exact of_decide_eq_true hbal
    have hflat : st.dys.flatten.length = st.dxs.flatten.length := by
      rw [List.length_flatten, List.length_flatten, hgood.1]
    split at hpost
    · simp only [Except.ok.injEq] at hpost
      rw [← hpost]
      simp
    · dsimp only at hpost
      split at hpost
      · rename_i xl yl sl hxl hyl hsl
        simp only [Except.ok.injEq] at hpost
        rw [← hpost]
        refine ⟨?_, ?_, ?_⟩ <;>
          simp only [List.length_take, List.length_append, List.length_replicate,
            List.length_map, cumsum_length, hflat, hgood.2.1] <;>
          omega
      · exact Except.noConfusion hpost
  · intro camera info n_frames fps ct hinfo hok
    exact get_camera_pos_len hinfo hok

/-- Witness for C2 at concrete inputs: a one-slot actor whose slot covers
the whole scene (balanced walk) resolves to tracks of exactly `n_frames`
entries, and a one-move camera resolves to a track of at least `n_frames`
equal-length x/y arrays. -/
theorem c2_track_lengths_witness :
    walkBalanced exSaOk 10 10 = true ∧
      get_scene_actor_frames exSaOk 10 10 = .ok exTrOk ∧
      (exTrOk.x.length = 10 ∧ exTrOk.y.length = 10 ∧ exTrOk.sprites.length = 10) ∧
      get_camera_pos exCamUnlinked [] 2 2 = .ok exCtUnlinked ∧
      (2 ≤ exCtUnlinked.x.length ∧ exCtUnlinked.x.length = exCtUnlinked.y.length) :=
  ⟨by decide, by decide,
   c2_track_lengths.1 exSaOk 10 10 exTrOk (by decide) (by decide),
   by decide,
   c2_track_lengths.2 exCamUnlinked [] 2 2 exCtUnlinked
     (fun p hp => absurd hp (by simp)) (by decide)⟩

/-- Counterexample for C2 as stated: an actor with two scheduled slots at
fps 10 whose first slot spans zero frames.  The walk appends two slot arrays
holding one frame in total, the padding tops the track up by
`n_frames - len(dx) = 10 - 2 = 8` entries only, and the returned x array has
9 entries instead of `n_frames = 10`. -/
theorem c2_short_actor_track_cex :
    (get_scene_actor_frames exSaShort 10 10).map (fun tr => tr.x.length) = .ok 9 ∧
      ¬ (get_scene_actor_frames exSaShort 10 10).map (fun tr => tr.x.length) = .ok 10 :=
  ⟨by decide, by decide⟩

/-- C1 (corrected): the render entry point at fps 60.  First part: when the
selected scene's background is `None`, `get_scene_frames` fails.  Second
part: when the background is set, the render is not guaranteed to succeed
(see `c1_background_set_still_fails_cex`); it succeeds with exactly
`n_frames = int(duration_sec * 60)` frames provided every scene actor's
track resolves successfully to exactly `n_frames` entries, every camera-move
duration is nonnegative and every linked camera move references a scene
actor of the scene. -/
theorem c1_render_entry :
    (∀ scene : Scene, scene.background = none →
      get_scene_frames scene = .error .noBackground) ∧
    (∀ (scene : Scene) (bg : Image), scene.background = some bg →
      (∀ sa ∈ scene.actors, ∃ tr,
        get_scene_actor_frames sa ((Q.trunc (scene.duration_sec.natMul 60)).toNat) 60 =
          .ok tr ∧
        tr.sprites.length = (Q.trunc (scene.duration_sec.natMul 60)).toNat ∧
        tr.x.length = (Q.trunc (scene.duration_sec.natMul 60)).toNat ∧
        tr.y.length = (Q.trunc (scene.duration_sec.natMul 60)).toNat) →
      (∀ m ∈ scene.camera.moves, 0 ≤ m.duration_sec.num ∧
        ∀ sa, m.linked_sa = some sa → sa ∈ scene.actors) →
      ∃ frames, get_scene_frames scene = .ok frames ∧
        frames.length = (Q.trunc (scene.duration_sec.natMul 60)).toNat) := by
  constructor
  · intro scene h
    unfold get_scene_frames
    rw [h]
  · intro scene bg hbg hacts hmoves
    obtain ⟨info, hinfo, hprop, hlkex⟩ :=
      buildActorFrames_ok ((Q.trunc (scene.duration_sec.natMul 60)).toNat) 60
        scene.actors
        (fun sa hsa => ((hacts sa hsa).imp (fun tr htr => htr.1)))
    have hinfo_len : ∀ p ∈ info,
        (p.2).sprites.length = (Q.trunc (scene.duration_sec.natMul 60)).toNat ∧
        (p.2).x.length = (Q.trunc (scene.duration_sec.natMul 60)).toNat ∧
        (p.2).y.length = (Q.trunc (scene.duration_sec.natMul 60)).toNat := by
      intro p hp
      obtain ⟨hpmem, hpok⟩ := hprop p hp
      obtain ⟨tr, htrok, hs, hx, hy⟩ := hacts p.1 hpmem
      rw [htrok] at hpok
      have heq : tr = p.2 := by
        simpa using hpok
      rw [← heq]
      exact ⟨hs, hx, hy⟩
    have hlk_full : ∀ sa ∈ scene.actors, ∃ tr, lookupTrack info sa = some tr ∧
        (Q.trunc (scene.duration_sec.natMul 60)).toNat ≤ tr.sprites.length ∧
        (Q.trunc (scene.duration_sec.natMul 60)).toNat ≤ tr.x.length ∧
        (Q.trunc (scene.duration_sec.natMul 60)).toNat ≤ tr.y.length := by
      intro sa hsa
      obtain ⟨tr, hlk⟩ := hlkex sa hsa
      obtain ⟨hs, hx, hy⟩ := hinfo_len (sa, tr) (lookupTrack_mem info sa tr hlk)
      exact ⟨tr, hlk, le_of_eq hs.symm, le_of_eq hx.symm, le_of_eq hy.symm⟩
    have hmv : ∀ m ∈ scene.camera.moves, 0 ≤ m.duration_sec.num ∧
        ∀ sa, m.linked_sa = some sa → ∃ tr, lookupTrack info sa = some tr :=
      fun m hm => ⟨(hmoves m hm).1,
        fun sa hsa => hlkex sa ((hmoves m hm).2 sa hsa)⟩
    obtain ⟨ct, hct, hctx, hcty⟩ := get_camera_pos_ok
      scene.camera info ((Q.trunc (scene.duration_sec.natMul 60)).toNat) 60
      (fun p hp => ⟨(hinfo_len p hp).2.1, (hinfo_len p hp).2.2⟩) hmv
    obtain ⟨frames, hframes, hflen⟩ := compose_frames_ok bg info ct
      scene.actors scene.camera ((Q.trunc (scene.duration_sec.natMul 60)).toNat)
      hlk_full hctx hcty
    refine ⟨frames, ?_, hflen⟩
    unfold get_scene_frames
    rw [hbg]
    dsimp only
    rw [hinfo]
    simp only [Except.bind]
    rw [hct]
    simp only [Except.bind]
    exact hframes

/-- Witness for C1 at a concrete 0.1-second scene with a background, one
covering actor slot and one nonnegative unlinked camera move: rendering
succeeds with exactly 6 frames. -/
theorem c1_render_entry_witness :
    ∃ frames, get_scene_frames exSceneOk = .ok frames ∧
      frames.length = (Q.trunc (exSceneOk.duration_sec.natMul 60)).toNat :=
  c1_render_entry.2 exSceneOk ⟨100, 100, []⟩ rfl
    (by
      intro sa hsa
      have hsa2 : sa = exSaOk := by
        simpa [exSceneOk] using hsa
      subst hsa2
      exact ⟨exTr6, by decide, by decide, by decide, by decide⟩)
    (by
      intro m hm
      have hm2 : m = CameraMove.mk 4 0 none (Qint 1) := by
        simpa [exSceneOk] using hm
      subst hm2
      exact ⟨by decide, fun sa hsa => by simp at hsa⟩)

/-- Counterexample for C1 as stated: a scene whose background is set but
whose only actor schedules a zero-component action — rendering fails with
the tiling division crash rather than succeeding with
`int(duration_sec * 60)` frames. -/
theorem c1_background_set_still_fails_cex :
    exSceneCrash.background.isSome = true ∧
      get_scene_frames exSceneCrash = .error .divByZeroTrack :=
  ⟨by decide, by decide⟩

end IsatAnim
